import Mathlib

/-!
Verification development for the tiny-tales-admin repository.

The admin console stores Books, Chapters, SubStories, Pages and
ProcessingSteps in a document database (Firestore collections, each document
carrying an id).  We model each collection as a list of records and each API
route / client method as a pure function on a `Store` value, following the
TypeScript sources:

* the Firestore client (`lib/firestore.ts`, full version embedded in the
  repository README): `getBookBySafeTitle`, `upsertBook`, `upsertChapter`,
  `upsertSubStory`, `upsertPage`, `getChaptersByBookId`,
  `getSubStoriesByChapterId`, `getPagesByChapterId`, `getPagesBySubStoryId`,
  `cancelProcessingStepsByBookId`, `deleteProcessingStepsByBookId`,
  `deletePagesByChapterId`, `deleteChaptersByBookId`, `deleteBook`,
  `getBookWithChaptersAndPages` (entity-graph branch);
* the route handlers: pipeline status GET, pipeline stop POST, pipeline
  history DELETE, book save PUT, book DELETE, pipeline trigger POST.

JavaScript `x || d` on strings treats the empty string as falsy; we model
optional strings as `String` with `""` for "absent" where the code
immediately applies `||` (which identifies `undefined` and `""`), and as
`Option String` where presence matters (Firestore document fields).
In-memory `Array.sort` by a numeric field is modelled by
`List.insertionSort` (a stable sort, as JS sort is).  Firestore document ids
are modelled by a `nextId` counter; batch updates/deletes address documents
by id exactly as the client does.
-/

namespace TinyTales

/-- JS `s || d` for strings: the empty string is falsy. -/
def jsOr (s d : String) : String := if s = "" then d else s

/-- JS `o || d` where `o` is a possibly-absent string field. -/
def jsOrOpt (o : Option String) (d : String) : String :=
  match o with
  | none => d
  | some s => if s = "" then d else s

/-- JS `o || d` where `o` is a possibly-absent numeric field (0 is falsy). -/
def jsOrNat (o : Option Nat) (d : Nat) : Nat :=
  match o with
  | none => d
  | some n => if n = 0 then d else n

/-- JS `String.prototype.startsWith` on the underlying character lists. -/
def listStarts : List Char → List Char → Bool
  | [], _ => true
  | _ :: _, [] => false
  | p :: ps, c :: cs => p == c && listStarts ps cs

/-- Whether string `s` starts with `p` (JS `s.startsWith(p)`). -/
def strStarts (s p : String) : Bool := listStarts p.data s.data

/-- JS `s.toLowerCase()`: lower-case every character. -/
def strLower (s : String) : String := ⟨s.data.map Char.toLower⟩

/-!  ## Status Aggregator (pipeline status GET handler)  -/

/-- Result of the status derivation: `{ overallStatus, isProcessing }`. -/
structure StatusResult where
  overallStatus : String
  isProcessing : Bool
deriving Repr, DecidableEq

/-- Step-based fallback of the status derivation (the `else` branch of the
route handler), operating on the already-defaulted step status strings
(`hasInProgress` / `hasFailed` / `allCompleted` checks, classifying each
status lower-cased). -/
def stepFallback (ss : List String) : StatusResult :=
  if ss.any (fun s => strLower s == "in_progress" || strLower s == "processing") then
    ⟨"processing", true⟩
  else if ss.any (fun s => strLower s == "failed") then ⟨"failed", false⟩
  else if decide (0 < ss.length) && ss.all (fun s => strLower s == "completed") then
    ⟨"completed", false⟩
  else if ss.length = 0 then ⟨"pending", false⟩
  else ⟨"processing", true⟩

/-- Status derivation of the pipeline status GET handler, translated from the
route source: `bookStatus = book.status || 'unknown'`, primary rules compare
the book status verbatim, the fallback classifies
`(step.status || 'unknown').toLowerCase()`.  `bookStatus = ""` models an
unset book status field (JS `||` identifies it with `undefined`). -/
def deriveStatus (bookStatus : String) (rawStepStatuses : List String) : StatusResult :=
  if jsOr bookStatus "unknown" = "processing" ∨ jsOr bookStatus "unknown" = "in_progress" then
    ⟨"processing", true⟩
  else if jsOr bookStatus "unknown" = "completed" then ⟨"completed", false⟩
  else if jsOr bookStatus "unknown" = "failed" then ⟨"failed", false⟩
  else stepFallback (rawStepStatuses.map (fun s => jsOr s "unknown"))

/-- Step-based fallback exactly as the specification words it, on the raw
step status strings. -/
def specFallback (ss : List String) : StatusResult :=
  if ss.any (fun s => strLower s == "in_progress" || strLower s == "processing") then
    ⟨"processing", true⟩
  else if ss.any (fun s => strLower s == "failed") then ⟨"failed", false⟩
  else if ss ≠ [] ∧ ss.all (fun s => strLower s == "completed") then ⟨"completed", false⟩
  else if ss = [] then ⟨"pending", false⟩
  else ⟨"processing", true⟩

/-- Status derivation exactly as the specification words it: book status
`processing`/`in_progress`, then `completed`, then `failed`; otherwise
step-based inference, case-insensitively, on the raw step status strings:
any active step, else any failed step, else a non-empty all-completed list,
else the empty list, else the optimistic mixed default. -/
def specStatus (bookStatus : String) (stepStatuses : List String) : StatusResult :=
  if bookStatus = "processing" ∨ bookStatus = "in_progress" then ⟨"processing", true⟩
  else if bookStatus = "completed" then ⟨"completed", false⟩
  else if bookStatus = "failed" then ⟨"failed", false⟩
  else specFallback stepStatuses

theorem jsOr_pt (p : String → Bool) (h0 : p "" = false) (hu : p "unknown" = false)
    (s : String) : p (jsOr s "unknown") = p s := by
  by_cases h : s = ""
  · subst h; simp [jsOr, hu, h0]
  · simp [jsOr, h]

theorem any_jsOr (p : String → Bool) (h0 : p "" = false) (hu : p "unknown" = false)
    (l : List String) :
    (l.map (fun s => jsOr s "unknown")).any p = l.any p := by
  induction l with
  | nil => rfl
  | cons a t ih => simp only [List.map_cons, List.any_cons, ih, jsOr_pt p h0 hu]

theorem all_jsOr (p : String → Bool) (h0 : p "" = false) (hu : p "unknown" = false)
    (l : List String) :
    (l.map (fun s => jsOr s "unknown")).all p = l.all p := by
  induction l with
  | nil => rfl
  | cons a t ih => simp only [List.map_cons, List.all_cons, ih, jsOr_pt p h0 hu]

theorem jsOr_unknown_eq_iff (s v : String) (hv : v ≠ "unknown") (h0 : v ≠ "") :
    (jsOr s "unknown" = v) = (s = v) := by
  by_cases h : s = ""
  · subst h
    simp [jsOr, Ne.symm hv, Ne.symm h0]
  · simp [jsOr, h]

theorem stepFallback_jsOr_eq (l : List String) :
    stepFallback (l.map (fun s => jsOr s "unknown")) = specFallback l := by
  unfold stepFallback specFallback
  rw [any_jsOr (fun s => strLower s == "in_progress" || strLower s == "processing")
      (by decide) (by decide),
    any_jsOr (fun s => strLower s == "failed") (by decide) (by decide),
    all_jsOr (fun s => strLower s == "completed") (by decide) (by decide),
    List.length_map]
  rcases l with _ | ⟨a, t⟩ <;> simp

/-- Implementation agrees with the specification wording on every input. -/
theorem deriveStatus_eq_specStatus (b : String) (steps : List String) :
    deriveStatus b steps = specStatus b steps := by
  unfold deriveStatus specStatus
  simp only [jsOr_unknown_eq_iff b "processing" (by decide) (by decide),
    jsOr_unknown_eq_iff b "in_progress" (by decide) (by decide),
    jsOr_unknown_eq_iff b "completed" (by decide) (by decide),
    jsOr_unknown_eq_iff b "failed" (by decide) (by decide),
    stepFallback_jsOr_eq]

/-!  ## Entity store model  -/

/-- Book document (`FirestoreBook`); `status = ""` models an unset status. -/
structure Book where
  id : Nat
  title : String
  safe_title : String
  chapter_count : Nat
  status : String
deriving Repr, DecidableEq

/-- Chapter document (`FirestoreChapter`). -/
structure Chapter where
  id : Nat
  book_id : Nat
  title : String
  order_index : Nat
  narration_version : String
  processing_status : String
deriving Repr, DecidableEq

/-- Inline section blob possibly present on a sub-story document. -/
structure InlineSection where
  page_number : Nat
  illustration_prompt : String
  dialogue : String
  image_url : Option String
  image_gcs_key : Option String
  illustration_image : Option String
deriving Repr, DecidableEq

/-- Sub-story document.  `upsertSubStory` writes only the five named fields;
`inlineSections` models a `sections` array stored directly on the document
(never written by the admin, used as a read-time fallback). -/
structure SubStory where
  id : Nat
  chapter_id : Nat
  sub_story_number : Nat
  title : String
  content : String
  inlineSections : List InlineSection
deriving Repr, DecidableEq

/-- Page document (`FirestorePage`).  The admin write path only ever sets
`chapter_id`; `sub_story_id` can exist on worker-written documents. -/
structure Page where
  id : Nat
  chapter_id : Nat
  sub_story_id : Option Nat
  page_number : Nat
  illustration_prompt : String
  dialogue : String
  image_url : Option String
  image_gcs_key : Option String
deriving Repr, DecidableEq

/-- Processing step document; `status = ""` models an unset status field. -/
structure ProcessingStep where
  id : Nat
  book_id : Nat
  step_name : String
  status : String
  error_message : Option String
deriving Repr, DecidableEq

/-- The five Firestore collections plus a fresh-document-id counter. -/
structure Store where
  books : List Book
  chapters : List Chapter
  subStories : List SubStory
  pages : List Page
  steps : List ProcessingStep
  nextId : Nat
deriving Repr, DecidableEq

/-- The empty store.  Document ids start at 1 so that id 0 plays the role of
the falsy empty-string id of the JS client. -/
def Store.empty : Store := ⟨[], [], [], [], [], 1⟩

/-!  ## Firestore client operations (`lib/firestore.ts`, README version)  -/

/-- `Partial<FirestoreBook>` as accepted by update/create calls. -/
structure BookFields where
  title : Option String
  safe_title : Option String
  chapter_count : Option Nat
  status : Option String
deriving Repr, DecidableEq

/-- Spread `{...b, ...p}` of a partial onto a book document. -/
def applyBookPatch (p : BookFields) (b : Book) : Book :=
  { b with
    title := p.title.getD b.title
    safe_title := p.safe_title.getD b.safe_title
    chapter_count := p.chapter_count.getD b.chapter_count
    status := p.status.getD b.status }

/-- `getBookBySafeTitle`: `where('safe_title','==',t).limit(1)`. -/
def getBookBySafeTitle (st : Store) (t : String) : Option Book :=
  st.books.find? (fun b => b.safe_title == t)

/-- `updateBook(bookId, updates)`. -/
def updateBook (st : Store) (bid : Nat) (p : BookFields) : Store :=
  { st with books := st.books.map (fun b => if b.id = bid then applyBookPatch p b else b) }

/-- `createBook(bookData)` with its `|| ''` / `|| 0` / `|| 'pending'` defaults. -/
def createBook (st : Store) (d : BookFields) : Store × Book :=
  let b : Book :=
    { id := st.nextId
      title := jsOrOpt d.title ""
      safe_title := jsOrOpt d.safe_title ""
      chapter_count := jsOrNat d.chapter_count 0
      status := jsOrOpt d.status "pending" }
  ({ st with books := st.books ++ [b], nextId := st.nextId + 1 }, b)

/-- Replace `_` with a space (`safeTitle.replace(/_/g, ' ')`). -/
def underscoresToSpaces (s : String) : String :=
  ⟨s.data.map (fun c => if c = '_' then ' ' else c)⟩

/-- `upsertBook(safeTitle, bookData)`: patch the book found by slug, else
create it with a human title derived from the slug when none is supplied. -/
def upsertBook (st : Store) (safeTitle : String) (d : BookFields) : Store × Book :=
  match getBookBySafeTitle st safeTitle with
  | some ex =>
    let p : BookFields := { d with safe_title := some safeTitle }
    (updateBook st ex.id p, applyBookPatch p ex)
  | none =>
    createBook st
      { d with
        safe_title := some safeTitle
        title := some (jsOrOpt d.title (underscoresToSpaces safeTitle)) }

/-- `Partial<FirestoreChapter>`. -/
structure ChapterFields where
  book_id : Option Nat
  title : Option String
  order_index : Option Nat
  narration_version : Option String
  processing_status : Option String
deriving Repr, DecidableEq

/-- Spread of a chapter partial onto a chapter document. -/
def applyChapterPatch (p : ChapterFields) (c : Chapter) : Chapter :=
  { c with
    book_id := p.book_id.getD c.book_id
    title := p.title.getD c.title
    order_index := p.order_index.getD c.order_index
    narration_version := p.narration_version.getD c.narration_version
    processing_status := p.processing_status.getD c.processing_status }

/-- `getChaptersByBookId`: fetch by `book_id`, then sort in memory by
`order_index`. -/
def getChaptersByBookId (st : Store) (bid : Nat) : List Chapter :=
  List.insertionSort (fun a b => a.order_index ≤ b.order_index)
    (st.chapters.filter (fun c => c.book_id == bid))

/-- `updateChapter(chapterId, updates)`. -/
def updateChapter (st : Store) (cid : Nat) (p : ChapterFields) : Store :=
  { st with chapters := st.chapters.map (fun c => if c.id = cid then applyChapterPatch p c else c) }

/-- `createChapter(chapterData)` with its defaults. -/
def createChapter (st : Store) (d : ChapterFields) : Store × Chapter :=
  let c : Chapter :=
    { id := st.nextId
      book_id := jsOrNat d.book_id 0
      title := jsOrOpt d.title ""
      order_index := jsOrNat d.order_index 0
      narration_version := jsOrOpt d.narration_version ""
      processing_status := jsOrOpt d.processing_status "pending" }
  ({ st with chapters := st.chapters ++ [c], nextId := st.nextId + 1 }, c)

/-- `upsertChapter(bookId, chapterTitle, chapterData)`: find by
`(book_id, title)`; patch the whole partial (including `order_index`) when
found, else create with `order_index` = current chapter count of the book. -/
def upsertChapter (st : Store) (bookId : Nat) (chapterTitle : String) (d : ChapterFields) :
    Store × Chapter :=
  let chapters := getChaptersByBookId st bookId
  match chapters.find? (fun c => c.title == chapterTitle) with
  | some ex =>
    let p : ChapterFields := { d with title := some chapterTitle }
    (updateChapter st ex.id p, applyChapterPatch p ex)
  | none =>
    createChapter st
      { d with
        book_id := some bookId
        title := some chapterTitle
        order_index := some chapters.length }

/-- `Partial<FirestorePage>`. -/
structure PageFields where
  chapter_id : Option Nat
  page_number : Option Nat
  illustration_prompt : Option String
  dialogue : Option String
  image_gcs_key : Option String
  image_url : Option String
deriving Repr, DecidableEq

/-- Spread of a page partial onto a page document. -/
def applyPagePatch (p : PageFields) (pg : Page) : Page :=
  { pg with
    chapter_id := p.chapter_id.getD pg.chapter_id
    page_number := p.page_number.getD pg.page_number
    illustration_prompt := p.illustration_prompt.getD pg.illustration_prompt
    dialogue := p.dialogue.getD pg.dialogue
    image_gcs_key := match p.image_gcs_key with | none => pg.image_gcs_key | some v => some v
    image_url := match p.image_url with | none => pg.image_url | some v => some v }

/-- `getPagesByChapterId`: fetch by `chapter_id`, sort in memory by
`page_number`. -/
def getPagesByChapterId (st : Store) (cid : Nat) : List Page :=
  List.insertionSort (fun a b => a.page_number ≤ b.page_number)
    (st.pages.filter (fun p => p.chapter_id == cid))

/-- `getPagesBySubStoryId`: fetch by `sub_story_id`, sort by `page_number`. -/
def getPagesBySubStoryId (st : Store) (sid : Nat) : List Page :=
  List.insertionSort (fun a b => a.page_number ≤ b.page_number)
    (st.pages.filter (fun p => p.sub_story_id == some sid))

/-- `updatePage(pageId, updates)`. -/
def updatePage (st : Store) (pid : Nat) (p : PageFields) : Store :=
  { st with pages := st.pages.map (fun pg => if pg.id = pid then applyPagePatch p pg else pg) }

/-- `createPage(pageData)`: note that only `chapter_id` is ever written as the
owner reference, never `sub_story_id`. -/
def createPage (st : Store) (d : PageFields) : Store × Page :=
  let p : Page :=
    { id := st.nextId
      chapter_id := jsOrNat d.chapter_id 0
      sub_story_id := none
      page_number := jsOrNat d.page_number 0
      illustration_prompt := jsOrOpt d.illustration_prompt ""
      dialogue := jsOrOpt d.dialogue ""
      image_gcs_key := d.image_gcs_key
      image_url := d.image_url }
  ({ st with pages := st.pages ++ [p], nextId := st.nextId + 1 }, p)

/-- `upsertPage(chapterId, pageNumber, pageData)`: find by
`(chapter_id, page_number)`; patch when found, else create. -/
def upsertPage (st : Store) (chapterId pageNumber : Nat) (d : PageFields) : Store × Page :=
  let pages := getPagesByChapterId st chapterId
  match pages.find? (fun p => p.page_number == pageNumber) with
  | some ex =>
    let p : PageFields := { d with page_number := some pageNumber }
    (updatePage st ex.id p, applyPagePatch p ex)
  | none =>
    createPage st { d with chapter_id := some chapterId, page_number := some pageNumber }

/-- `getSubStoriesByChapterId`: fetch by `chapter_id`, sort by
`sub_story_number`. -/
def getSubStoriesByChapterId (st : Store) (cid : Nat) : List SubStory :=
  List.insertionSort (fun a b => a.sub_story_number ≤ b.sub_story_number)
    (st.subStories.filter (fun s => s.chapter_id == cid))

/-- `upsertSubStory(chapterId, subStoryNumber, {title, content})`: find by
`(chapter_id, sub_story_number)`; update the five named fields when found
(leaving any inline `sections` blob in place), else create a document with
exactly those fields (hence no inline sections). -/
def upsertSubStory (st : Store) (chapterId subStoryNumber : Nat) (title content : String) :
    Store × SubStory :=
  match st.subStories.find?
      (fun s => s.chapter_id == chapterId && s.sub_story_number == subStoryNumber) with
  | some ex =>
    let upd : SubStory :=
      { ex with
        chapter_id := chapterId
        sub_story_number := subStoryNumber
        title := jsOr title ""
        content := content }
    ({ st with subStories := st.subStories.map (fun s => if s.id = ex.id then upd else s) }, upd)
  | none =>
    let ss : SubStory :=
      { id := st.nextId
        chapter_id := chapterId
        sub_story_number := subStoryNumber
        title := jsOr title ""
        content := content
        inlineSections := [] }
    ({ st with subStories := st.subStories ++ [ss], nextId := st.nextId + 1 }, ss)

/-- `getProcessingStepsByBookId`: fetch by `book_id` (no sort). -/
def getProcessingStepsByBookId (st : Store) (bid : Nat) : List ProcessingStep :=
  st.steps.filter (fun s => s.book_id == bid)

/-- `cancelProcessingStepsByBookId`: batch-update every step of the book whose
status is exactly `in_progress` or `processing` to `cancelled` with the fixed
message, returning how many were updated. -/
def cancelProcessingStepsByBookId (st : Store) (bid : Nat) : Store × Nat :=
  let steps := getProcessingStepsByBookId st bid
  let inProgressSteps :=
    steps.filter (fun s => s.status == "in_progress" || s.status == "processing")
  let ids := inProgressSteps.map (fun s => s.id)
  ({ st with
      steps := st.steps.map (fun s =>
        if ids.contains s.id then
          { s with status := "cancelled", error_message := some "Pipeline stopped by user" }
        else s) },
    inProgressSteps.length)

/-- `deleteProcessingStepsByBookId`: batch-delete the book's steps by id. -/
def deleteProcessingStepsByBookId (st : Store) (bid : Nat) : Store :=
  let ids := (getProcessingStepsByBookId st bid).map (fun s => s.id)
  { st with steps := st.steps.filter (fun s => !(ids.contains s.id)) }

/-- `deletePagesByChapterId`: batch-delete the chapter's pages by id. -/
def deletePagesByChapterId (st : Store) (cid : Nat) : Store :=
  let ids := (getPagesByChapterId st cid).map (fun p => p.id)
  { st with pages := st.pages.filter (fun p => !(ids.contains p.id)) }

/-- `deleteChaptersByBookId`: delete each chapter's pages, then batch-delete
the chapters themselves. -/
def deleteChaptersByBookId (st : Store) (bid : Nat) : Store :=
  let chapters := getChaptersByBookId st bid
  let st := chapters.foldl (fun st c => deletePagesByChapterId st c.id) st
  let ids := chapters.map (fun c => c.id)
  { st with chapters := st.chapters.filter (fun c => !(ids.contains c.id)) }

/-- `deleteBook(safeTitle)`: steps, then chapters (with their pages), then the
book document itself.  Sub-story documents are not touched. -/
def deleteBook (st : Store) (safeTitle : String) : Option Store :=
  match getBookBySafeTitle st safeTitle with
  | none => none
  | some b =>
    let st := deleteProcessingStepsByBookId st b.id
    let st := deleteChaptersByBookId st b.id
    some { st with books := st.books.filter (fun x => !(x.id == b.id)) }

/-!  ## Pipeline routes: status GET, stop POST, history DELETE  -/

/-- Pipeline status GET handler (book lookup, then status derivation over the
book's steps); `none` models the not-found payload.  The pair is
`(bookStatus, { overallStatus, isProcessing })`. -/
def pipelineStatus (st : Store) (t : String) : Option (String × StatusResult) :=
  match getBookBySafeTitle st t with
  | none => none
  | some b =>
    let steps := getProcessingStepsByBookId st b.id
    some (jsOr b.status "unknown", deriveStatus b.status (steps.map (fun s => s.status)))

/-- Pipeline stop POST handler: set the book status to `cancelled`, then
cancel its active steps, answering the cancelled count; `none` models 404. -/
def stopPipeline (st : Store) (t : String) : Store × Option Nat :=
  match getBookBySafeTitle st t with
  | none => (st, none)
  | some b =>
    let st := updateBook st b.id
      { title := none, safe_title := none, chapter_count := none, status := some "cancelled" }
    let r := cancelProcessingStepsByBookId st b.id
    (r.1, some r.2)

/-- Pipeline history DELETE handler: delete the book's processing steps;
`none` models 404. -/
def removePipelineHistory (st : Store) (t : String) : Option Store :=
  match getBookBySafeTitle st t with
  | none => none
  | some b => some (deleteProcessingStepsByBookId st b.id)

/-!  ## Book View Resolver: entity-graph read path  -/

/-- Canonical page-level shape of the resolver output. -/
structure SectionOut where
  page_number : Nat
  illustration_prompt : String
  dialogue : String
  illustration_image : String
deriving Repr, DecidableEq

/-- Resolver output for one sub-story. -/
structure SubStoryOut where
  sub_story_number : Nat
  title : String
  content : String
  sections : List SectionOut
deriving Repr, DecidableEq

/-- Resolver output reading version: flat sections or grouped sub-stories. -/
inductive ReadingOut where
  | flat (sections : List SectionOut)
  | grouped (sub_stories : List SubStoryOut)
deriving Repr, DecidableEq

/-- Resolver output for one chapter. -/
structure ChapterOut where
  id : Nat
  title : String
  book_title : String
  narration_version : String
  reading_version : ReadingOut
  content : String
deriving Repr, DecidableEq

/-- Resolver output for a whole book. -/
structure BookOut where
  book_title : String
  chapter_count : Nat
  chapters : List ChapterOut
deriving Repr, DecidableEq

/-- Page document to canonical section:
`illustration_image = page.image_url || page.image_gcs_key || ''`. -/
def pageToSection (p : Page) : SectionOut :=
  { page_number := p.page_number
    illustration_prompt := p.illustration_prompt
    dialogue := p.dialogue
    illustration_image := jsOrOpt p.image_url (jsOrOpt p.image_gcs_key "") }

/-- Inline sub-story section blob to canonical section:
`section.image_url || section.image_gcs_key || section.illustration_image || ''`. -/
def inlineToSection (s : InlineSection) : SectionOut :=
  { page_number := s.page_number
    illustration_prompt := s.illustration_prompt
    dialogue := s.dialogue
    illustration_image :=
      jsOrOpt s.image_url (jsOrOpt s.image_gcs_key (jsOrOpt s.illustration_image "")) }

/-- `getBookWithChaptersAndPages` — entity-graph branch, used when no
snapshot blob exists (the snapshot branch short-circuits before this code
and is outside the round-trip claims, which assume no snapshot).  For each
chapter, sub-stories are loaded first; if any exist, pages are loaded per
sub-story by `sub_story_id`, falling back to an inline `sections` blob;
otherwise pages are loaded directly by `chapter_id` (legacy flat schema). -/
def getBookWithChaptersAndPages (st : Store) (safeTitle : String) : Option BookOut :=
  match getBookBySafeTitle st safeTitle with
  | none => none
  | some book =>
    let chapters := getChaptersByBookId st book.id
    some
      { book_title := book.title
        chapter_count := book.chapter_count
        chapters := chapters.map (fun ch =>
          let subs := getSubStoriesByChapterId st ch.id
          if 0 < subs.length then
            { id := ch.id
              title := ch.title
              book_title := book.title
              narration_version := ch.narration_version
              reading_version := .grouped (subs.map (fun ss =>
                let pages := getPagesBySubStoryId st ss.id
                { sub_story_number := ss.sub_story_number
                  title := ss.title
                  content := ss.content
                  sections :=
                    if 0 < pages.length then pages.map pageToSection
                    else ss.inlineSections.map inlineToSection }))
              content := ch.narration_version }
          else
            { id := ch.id
              title := ch.title
              book_title := book.title
              narration_version := ch.narration_version
              reading_version := .flat ((getPagesByChapterId st ch.id).map pageToSection)
              content := ch.narration_version }) }

/-!  ## Book save path (PUT handler of the book route)  -/

/-- Incoming page section of the editing client payload. -/
structure SectionIn where
  page_number : Nat
  dialogue : String
  illustration_prompt : String
  illustration_image : String
deriving Repr, DecidableEq

/-- Incoming sub-story of the payload. -/
structure SubStoryIn where
  sub_story_number : Nat
  title : String
  content : String
  sections : Option (List SectionIn)
deriving Repr, DecidableEq

/-- Incoming reading version: the handler probes `sub_stories` first, then
`sections`. -/
structure ReadingIn where
  sub_stories : Option (List SubStoryIn)
  sections : Option (List SectionIn)
deriving Repr, DecidableEq

/-- Incoming chapter of the payload (`""` models an absent string field). -/
structure ChapterIn where
  title : String
  narration_version : String
  content : String
  reading_version : ReadingIn
deriving Repr, DecidableEq

/-- Incoming book payload of the PUT handler. -/
structure BookIn where
  book_title : String
  chapter_count : Option Nat
  chapters : List ChapterIn
deriving Repr, DecidableEq

/-- One page upsert of the save loop: classify `illustration_image` as URL
(`http` prefix) or GCS key (`books/` prefix) and upsert by
`(chapter_id, page_number)`. -/
def savePageSection (st : Store) (chapterId : Nat) (sec : SectionIn) : Store :=
  (upsertPage st chapterId sec.page_number
    { chapter_id := none
      page_number := none
      dialogue := some sec.dialogue
      illustration_prompt := some sec.illustration_prompt
      image_url := if strStarts sec.illustration_image "http" then
          some sec.illustration_image
        else none
      image_gcs_key := if strStarts sec.illustration_image "books/" then
          some sec.illustration_image
        else none }).1

/-- Page loop of the save handler: each page upsert failure is caught and
skipped (`failPage` decides, by chapter index and page number, which page
upserts throw). -/
def saveSections (st : Store) (chapterId chIdx : Nat) (secs : List SectionIn)
    (failPage : Nat → Nat → Bool) : Store :=
  secs.foldl (fun st sec =>
    if failPage chIdx sec.page_number then st else savePageSection st chapterId sec) st

/-- Sub-story loop of the save handler: a sub-story upsert failure is
re-thrown (second component `false`), aborting the remaining work; page
failures inside a sub-story are skipped. -/
def saveSubStories (st : Store) (chapterId chIdx : Nat) (subs : List SubStoryIn)
    (failSub failPage : Nat → Nat → Bool) : Store × Bool :=
  match subs with
  | [] => (st, true)
  | ss :: rest =>
    if failSub chIdx ss.sub_story_number then (st, false)
    else
      let st := (upsertSubStory st chapterId ss.sub_story_number ss.title ss.content).1
      let st := match ss.sections with
        | some secs => saveSections st chapterId chIdx secs failPage
        | none => st
      saveSubStories st chapterId chIdx rest failSub failPage

/-- Chapter loop of the save handler: upsert the chapter by
`(book_id, title)` — with the loop index as `order_index` and
`title || 'Chapter i+1'`, `narration_version || content || ''` — then save
its sub-stories or flat sections. -/
def saveChapters (st : Store) (bookId : Nat) (chapters : List ChapterIn) (idx : Nat)
    (failSub failPage : Nat → Nat → Bool) : Store × Bool :=
  match chapters with
  | [] => (st, true)
  | ch :: rest =>
    let chapterTitle := jsOr ch.title ("Chapter " ++ toString (idx + 1))
    let narrationText := jsOr ch.narration_version (jsOr ch.content "")
    let r := upsertChapter st bookId chapterTitle
      { book_id := none
        title := none
        order_index := some idx
        narration_version := some narrationText
        processing_status := none }
    match ch.reading_version.sub_stories with
    | some subs =>
      let r2 := saveSubStories r.1 r.2.id idx subs failSub failPage
      if r2.2 then saveChapters r2.1 bookId rest (idx + 1) failSub failPage
      else (r2.1, false)
    | none =>
      match ch.reading_version.sections with
      | some secs =>
        saveChapters (saveSections r.1 r.2.id idx secs failPage) bookId rest (idx + 1)
          failSub failPage
      | none => saveChapters r.1 bookId rest (idx + 1) failSub failPage

/-- PUT handler of the book route: resolve or create the book by slug, patch
its metadata when supplied, then run the chapter loop.  The second component
is `true` for the success response, `false` for the 500 response produced by
a re-thrown sub-story failure. -/
def savePUT (st : Store) (safeTitle : String) (data : BookIn)
    (failSub failPage : Nat → Nat → Bool) : Store × Bool :=
  match getBookBySafeTitle st safeTitle with
  | none =>
    let bookTitle := jsOr data.book_title (underscoresToSpaces safeTitle)
    let chapterCount :=
      if data.chapters.length ≠ 0 then data.chapters.length else jsOrNat data.chapter_count 0
    let r := upsertBook st safeTitle
      { title := some bookTitle
        safe_title := none
        chapter_count := some chapterCount
        status := some "pending" }
    saveChapters r.1 r.2.id data.chapters 0 failSub failPage
  | some book =>
    let st :=
      if data.book_title ≠ "" ∨ data.chapter_count.isSome then
        updateBook st book.id
          { title := some (jsOr data.book_title book.title)
            safe_title := none
            chapter_count := some (jsOrNat data.chapter_count
              (if data.chapters.length ≠ 0 then data.chapters.length else book.chapter_count))
            status := none }
      else st
    saveChapters st book.id data.chapters 0 failSub failPage

/-- Failure oracle under which every store write succeeds. -/
def noFailure : Nat → Nat → Bool := fun _ _ => false

/-!  ## Trigger Dispatcher (pipeline trigger POST handler)  -/

/-- Pub/Sub message payload built by the trigger endpoint. -/
structure TriggerMessage where
  book_title : String
  chapter_count : Nat
  output_formats : List String
  chapter_title : Option String
  regenerate_content : Bool
  regenerate_illustrations_only : Bool
deriving Repr, DecidableEq

/-- Pub/Sub message routing attributes. -/
structure MessageAttributes where
  action : String
  book_safe_title : String
deriving Repr, DecidableEq

/-- Trigger action of the request body. -/
inductive TriggerAction where
  | content
  | illustrations
  | both
deriving Repr, DecidableEq

/-- JS truthiness of an optional string request field. -/
def jsTruthy (o : Option String) : Bool :=
  match o with
  | none => false
  | some s => !(s == "")

/-- Messages published by the trigger POST handler, in publish order:
`both` publishes the content message then the illustrations message; a
single action publishes one message.  Every payload carries
`book_title` (slug with underscores restored to spaces), the constant
`chapter_count = 1`, the constant `output_formats`, the chapter title when
truthy, and the regenerate flag of its action. -/
def buildTriggerMessages (bookSafeTitle : String) (action : TriggerAction)
    (chapterTitle : Option String) : List (TriggerMessage × MessageAttributes) :=
  let bookTitle := underscoresToSpaces bookSafeTitle
  let chTitle := if jsTruthy chapterTitle then chapterTitle else none
  match action with
  | .both =>
    [ ({ book_title := bookTitle
         chapter_count := 1
         output_formats := ["pdf", "html", "epub"]
         chapter_title := chTitle
         regenerate_content := true
         regenerate_illustrations_only := false },
       { action := "content", book_safe_title := bookSafeTitle }),
      ({ book_title := bookTitle
         chapter_count := 1
         output_formats := ["pdf", "html", "epub"]
         chapter_title := chTitle
         regenerate_content := false
         regenerate_illustrations_only := true },
       { action := "illustrations", book_safe_title := bookSafeTitle }) ]
  | .content =>
    [ ({ book_title := bookTitle
         chapter_count := 1
         output_formats := ["pdf", "html", "epub"]
         chapter_title := chTitle
         regenerate_content := true
         regenerate_illustrations_only := false },
       { action := "content", book_safe_title := bookSafeTitle }) ]
  | .illustrations =>
    [ ({ book_title := bookTitle
         chapter_count := 1
         output_formats := ["pdf", "html", "epub"]
         chapter_title := chTitle
         regenerate_content := false
         regenerate_illustrations_only := true },
       { action := "illustrations", book_safe_title := bookSafeTitle }) ]

/-!  ## Claim C1  -/

/-- C1: the status endpoint derivation is a pure function of the book status
string and the step status strings, agreeing everywhere with the spec's
precedence (book status `processing`/`in_progress`, then `completed`, then
`failed`, then case-insensitive step inference with the optimistic mixed
default); in particular book status `completed` wins regardless of steps,
an absent book status with steps `[completed, completed]` gives `completed`,
steps `[completed, failed]` give `failed`, and no steps give `pending`. -/
theorem C1_status_derivation_pure :
    (∀ b steps, deriveStatus b steps = specStatus b steps) ∧
    (∀ steps, deriveStatus "completed" steps = ⟨"completed", false⟩) ∧
    deriveStatus "" ["completed", "completed"] = ⟨"completed", false⟩ ∧
    deriveStatus "" ["completed", "failed"] = ⟨"failed", false⟩ ∧
    deriveStatus "" [] = ⟨"pending", false⟩ := by
  refine ⟨deriveStatus_eq_specStatus, fun steps => ?_, by decide, by decide, by decide⟩
  rw [deriveStatus_eq_specStatus]
  simp [specStatus]

/-!  ## Claim C10  -/

/-- C10: every message the trigger endpoint publishes — for any action and
optional chapter title — carries the constant fields `chapter_count = 1` and
`output_formats = [pdf, html, epub]` (no store is consulted, so the book's
actual chapter count is irrelevant), alongside `book_title` being the slug
with underscores restored to spaces. -/
theorem C10_trigger_payload_constants :
    ∀ (bookSafeTitle : String) (action : TriggerAction) (chapterTitle : Option String),
      ∀ m ∈ buildTriggerMessages bookSafeTitle action chapterTitle,
        m.1.chapter_count = 1 ∧
        m.1.output_formats = ["pdf", "html", "epub"] ∧
        m.1.book_title = underscoresToSpaces bookSafeTitle ∧
        m.2.book_safe_title = bookSafeTitle := by
  intro t action c m hm
  cases action <;>
    simp only [buildTriggerMessages, List.mem_cons, List.not_mem_nil, or_false] at hm
  case content => subst hm; exact ⟨rfl, rfl, rfl, rfl⟩
  case illustrations => subst hm; exact ⟨rfl, rfl, rfl, rfl⟩
  case both => rcases hm with rfl | rfl <;> exact ⟨rfl, rfl, rfl, rfl⟩

/-- C10 witness message: the first (content) message of a `both` trigger for
`My_Book` with a chapter title. -/
def messageC10W : TriggerMessage × MessageAttributes :=
  ({ book_title := "My Book"
     chapter_count := 1
     output_formats := ["pdf", "html", "epub"]
     chapter_title := some "Ch"
     regenerate_content := true
     regenerate_illustrations_only := false },
   { action := "content", book_safe_title := "My_Book" })

/-- C10 witness: the payload-constants theorem applied to a concrete
message of a concrete trigger request. -/
theorem C10_trigger_payload_constants_witness :
    messageC10W.1.chapter_count = 1 ∧
    messageC10W.1.output_formats = ["pdf", "html", "epub"] ∧
    messageC10W.1.book_title = underscoresToSpaces "My_Book" ∧
    messageC10W.2.book_safe_title = "My_Book" :=
  C10_trigger_payload_constants "My_Book" TriggerAction.both (some "Ch") messageC10W
    (by decide)

/-!  ## Claim C5  -/

/-- Book of the Harry_Potter scenario: status unset. -/
def bookHP : Book :=
  { id := 1, title := "Harry Potter", safe_title := "Harry_Potter", chapter_count := 1,
    status := "" }

/-- The scenario's single in-progress processing step. -/
def stepHP : ProcessingStep :=
  { id := 2, book_id := 1, step_name := "content_generation", status := "in_progress",
    error_message := none }

/-- Store of the Harry_Potter scenario. -/
def storeHP : Store :=
  { books := [bookHP], chapters := [], subStories := [], pages := [], steps := [stepHP],
    nextId := 3 }

/-- C5: with the book status unset and one `in_progress` step, the status
endpoint answers `processing`/`isProcessing = true`; stop then cancels one
step; and the subsequent status call — book status now `cancelled`, the step
now `cancelled` — lands in the mixed/other branch and again answers
`processing`/`isProcessing = true`. -/
theorem C5_cancelled_book_edge_case :
    pipelineStatus storeHP "Harry_Potter" =
      some ("unknown", ⟨"processing", true⟩) ∧
    (stopPipeline storeHP "Harry_Potter").2 = some 1 ∧
    pipelineStatus (stopPipeline storeHP "Harry_Potter").1 "Harry_Potter" =
      some ("cancelled", ⟨"processing", true⟩) := by decide

/-!  ## Claim C3 (code bug)  -/

/-- C3 failing input: the single page of the sub-story. -/
def sectionC3 : SectionIn :=
  { page_number := 1, dialogue := "d", illustration_prompt := "p",
    illustration_image := "http://img" }

/-- C3 failing input: one sub-story with empty content and one page. -/
def subStoryC3 : SubStoryIn :=
  { sub_story_number := 1, title := "S", content := "", sections := some [sectionC3] }

/-- C3 failing input: one chapter in the grouped shape. -/
def chapterC3 : ChapterIn :=
  { title := "C1", narration_version := "n", content := "",
    reading_version := { sub_stories := some [subStoryC3], sections := none } }

/-- C3 failing input: the book payload. -/
def bookInC3 : BookIn :=
  { book_title := "T", chapter_count := some 1, chapters := [chapterC3] }

/-- C3: saving the sub-stories shape writes its page with `chapter_id` only
(never `sub_story_id`), while the entity-graph read loads a grouped
chapter's pages by `sub_story_id` and falls back to an inline sections blob
the save never writes; so the round-trip preserves the sub-story's title and
empty-string content but returns zero sections although one page was saved
and still sits in the store. -/
theorem C3_substory_roundtrip_drops_pages :
    (savePUT Store.empty "Book_T" bookInC3 noFailure noFailure).2 = true ∧
    (savePUT Store.empty "Book_T" bookInC3 noFailure noFailure).1.pages.length = 1 ∧
    getBookWithChaptersAndPages
        (savePUT Store.empty "Book_T" bookInC3 noFailure noFailure).1 "Book_T" =
      some
        { book_title := "T"
          chapter_count := 1
          chapters :=
            [{ id := 2, title := "C1", book_title := "T", narration_version := "n"
               reading_version := .grouped
                 [{ sub_story_number := 1, title := "S", content := "", sections := [] }]
               content := "n" }] } := by decide

/-!  ## Claim C2: counterexample  -/

/-- C2 counterexample store: one step whose status is upper-case
`IN_PROGRESS`. -/
def storeC2 : Store :=
  { books := [{ id := 1, title := "B", safe_title := "B", chapter_count := 0, status := "" }]
    chapters := []
    subStories := []
    pages := []
    steps := [{ id := 2, book_id := 1, step_name := "s", status := "IN_PROGRESS",
                error_message := none }]
    nextId := 3 }

/-- C2 counterexample: the step is active when its status is read
case-insensitively (so the claim demands `cancelledSteps = 1` and a
transition to `cancelled`), yet stop cancels zero steps and leaves the step
untouched, because the cancel filter compares the status verbatim. -/
theorem C2_counterexample_case_sensitive_cancel :
    ((getProcessingStepsByBookId storeC2 1).filter (fun s =>
        strLower s.status == "in_progress" || strLower s.status == "processing")).length
      = 1 ∧
    (stopPipeline storeC2 "B").2 = some 0 ∧
    (stopPipeline storeC2 "B").1.steps =
      [{ id := 2, book_id := 1, step_name := "s", status := "IN_PROGRESS",
         error_message := none }] := by decide

/-!  ## Claim C6: counterexample  -/

/-- C6 counterexample store: a book with one chapter, one sub-story, one
page and one step. -/
def storeC6 : Store :=
  { books := [{ id := 1, title := "T", safe_title := "TT", chapter_count := 1, status := "" }]
    chapters := [{ id := 2, book_id := 1, title := "A", order_index := 0,
                   narration_version := "", processing_status := "pending" }]
    subStories := [{ id := 3, chapter_id := 2, sub_story_number := 1, title := "S",
                     content := "c", inlineSections := [] }]
    pages := [{ id := 4, chapter_id := 2, sub_story_id := none, page_number := 1,
                illustration_prompt := "", dialogue := "", image_url := none,
                image_gcs_key := none }]
    steps := [{ id := 5, book_id := 1, step_name := "s", status := "completed",
                error_message := none }]
    nextId := 6 }

/-- C6 counterexample: deleting the book removes its step, page, chapter and
the book document, but the sub-story row — whose `chapter_id` references the
deleted chapter — survives the cascade, so the claim's "no SubStory row
remains" is false. -/
theorem C6_counterexample_substory_survives_delete :
    deleteBook storeC6 "TT" =
      some
        { books := []
          chapters := []
          subStories := [{ id := 3, chapter_id := 2, sub_story_number := 1, title := "S",
                           content := "c", inlineSections := [] }]
          pages := []
          steps := []
          nextId := 6 } := by decide

/-!  ## Claim C7: counterexample  -/

/-- C7 chapter A of the first save, with empty flat sections. -/
def chapterInA : ChapterIn :=
  { title := "A", narration_version := "na", content := "",
    reading_version := { sub_stories := none, sections := some [] } }

/-- C7 chapter B. -/
def chapterInB : ChapterIn :=
  { title := "B", narration_version := "nb", content := "",
    reading_version := { sub_stories := none, sections := some [] } }

/-- Store after saving the fresh book with chapters `[A, B]`. -/
def save1C7 : Store :=
  (savePUT Store.empty "T"
    { book_title := "T", chapter_count := none, chapters := [chapterInA, chapterInB] }
    noFailure noFailure).1

/-- Store after a second save whose payload lists only chapter `B`. -/
def save2C7 : Store :=
  (savePUT save1C7 "T" { book_title := "", chapter_count := none, chapters := [chapterInB] }
    noFailure noFailure).1

/-- C7 counterexample: chapter B is created with `order_index = 1`, and a
later save listing B first renumbers it to `0` — a later save does mutate an
existing chapter's `order_index`, contradicting the claim. -/
theorem C7_counterexample_order_index_renumbered :
    ((save1C7.chapters.find? (fun c => c.title == "B")).map (fun c => c.order_index)
        = some 1) ∧
    ((save2C7.chapters.find? (fun c => c.title == "B")).map (fun c => c.order_index)
        = some 0) := by decide

/-!  ## Claim C8: counterexample  -/

/-- C8 counterexample payload: first chapter with a failing sub-story upsert,
second chapter with a healthy sub-story carrying one page. -/
def bookInC8 : BookIn :=
  { book_title := "T"
    chapter_count := none
    chapters :=
      [{ title := "CF", narration_version := "n", content := ""
         reading_version :=
           { sub_stories := some [{ sub_story_number := 1, title := "F", content := "x",
                                    sections := none }]
             sections := none } },
       { title := "CG", narration_version := "n", content := ""
         reading_version :=
           { sub_stories := some
               [{ sub_story_number := 1, title := "G", content := "y"
                  sections := some [{ page_number := 1, dialogue := "d",
                                      illustration_prompt := "p",
                                      illustration_image := "" }] }]
             sections := none } }] }

/-- Failure oracle of the C8 counterexample: the sub-story upsert of the
first chapter throws. -/
def failSubC8 : Nat → Nat → Bool := fun chIdx n => chIdx == 0 && n == 1

/-- C8 counterexample: the claim says a sub-story upsert failure is fatal
only to that sub-story while the remaining sub-stories and chapters still
save; in fact the handler re-throws, so the save answers the 500 response
and the second chapter, its sub-story and its page are never written. -/
theorem C8_counterexample_substory_failure_aborts_save :
    (savePUT Store.empty "T" bookInC8 failSubC8 noFailure).2 = false ∧
    (savePUT Store.empty "T" bookInC8 failSubC8 noFailure).1.chapters.length = 1 ∧
    (savePUT Store.empty "T" bookInC8 failSubC8 noFailure).1.subStories = [] ∧
    (savePUT Store.empty "T" bookInC8 failSubC8 noFailure).1.pages = [] := by decide

/-!  ## Helper lemmas: id-addressed batch updates and deletes  -/

theorem contains_eq_of_perm {α : Type} [BEq α] [LawfulBEq α] {l₁ l₂ : List α}
    (h : List.Perm l₁ l₂) (a : α) : l₁.contains a = l₂.contains a := by
  by_cases hm : a ∈ l₂
  · have h1 : l₁.contains a = true := List.elem_iff.mpr (h.mem_iff.mpr hm)
    have h2 : l₂.contains a = true := List.elem_iff.mpr hm
    rw [h1, h2]
  · have h1 : l₁.contains a = false := by
      rw [Bool.eq_false_iff]
      intro hc
      exact hm (h.mem_iff.mp (List.elem_iff.mp hc))
    have h2 : l₂.contains a = false := by
      rw [Bool.eq_false_iff]
      intro hc
      exact hm (List.elem_iff.mp hc)
    rw [h1, h2]

/-- When ids are unique, membership of an element's id among the ids of the
filtered list decides exactly the filter predicate. -/
theorem mem_map_id_filter {α : Type} (f : α → Nat) (p : α → Bool) (l : List α)
    (hnd : (l.map f).Nodup) (x : α) (hx : x ∈ l) :
    ((l.filter p).map f).contains (f x) = p x := by
  by_cases hp : p x = true
  · rw [hp]
    exact List.elem_iff.mpr (List.mem_map_of_mem f (List.mem_filter.mpr ⟨hx, hp⟩))
  · have hnm : f x ∉ (l.filter p).map f := by
      intro hmem
      rcases List.mem_map.mp hmem with ⟨y, hy, hfy⟩
      rcases List.mem_filter.mp hy with ⟨hyl, hpy⟩
      have hxy : y = x := List.inj_on_of_nodup_map hnd hyl hx hfy
      subst hxy
      exact hp hpy
    rw [Bool.not_eq_true] at hp
    rw [hp, Bool.eq_false_iff]
    intro hc
    exact hnm (List.elem_iff.mp hc)

/-- `deleteProcessingStepsByBookId` is, under unique step ids, the filter
dropping exactly the book's steps. -/
theorem deleteSteps_eq (st : Store) (bid : Nat)
    (hnd : (st.steps.map (fun s => s.id)).Nodup) :
    deleteProcessingStepsByBookId st bid =
      { st with steps := st.steps.filter (fun s => !(s.book_id == bid)) } := by
  unfold deleteProcessingStepsByBookId getProcessingStepsByBookId
  dsimp only
  congr 1
  apply List.filter_congr
  intro s hs
  rw [mem_map_id_filter (fun s => s.id) (fun s => s.book_id == bid) st.steps hnd s hs]

/-- `deletePagesByChapterId` is, under unique page ids, the filter dropping
exactly the chapter's pages. -/
theorem deletePages_eq (st : Store) (cid : Nat)
    (hnd : (st.pages.map (fun p => p.id)).Nodup) :
    deletePagesByChapterId st cid =
      { st with pages := st.pages.filter (fun p => !(p.chapter_id == cid)) } := by
  unfold deletePagesByChapterId getPagesByChapterId
  dsimp only
  congr 1
  apply List.filter_congr
  intro p hp
  have hperm :
      List.Perm
        ((List.insertionSort (fun a b => a.page_number ≤ b.page_number)
          (List.filter (fun p => p.chapter_id == cid) st.pages)).map (fun p => p.id))
        ((List.filter (fun p => p.chapter_id == cid) st.pages).map (fun p => p.id)) :=
    List.Perm.map (fun p => p.id)
      (List.perm_insertionSort (fun a b => a.page_number ≤ b.page_number)
        (List.filter (fun p => p.chapter_id == cid) st.pages))
  rw [contains_eq_of_perm hperm p.id]
  rw [mem_map_id_filter (fun p => p.id) (fun p => p.chapter_id == cid) st.pages hnd p hp]

/-- `cancelProcessingStepsByBookId` is, under unique step ids, the pointwise
transition of exactly the book's steps whose status is verbatim
`in_progress` or `processing`, and the count of those steps. -/
theorem cancelSteps_eq (st : Store) (bid : Nat)
    (hnd : (st.steps.map (fun s => s.id)).Nodup) :
    cancelProcessingStepsByBookId st bid =
      ({ st with
          steps := st.steps.map (fun s =>
            if s.book_id == bid && (s.status == "in_progress" || s.status == "processing") then
              { s with status := "cancelled", error_message := some "Pipeline stopped by user" }
            else s) },
        (st.steps.filter (fun s =>
          s.book_id == bid && (s.status == "in_progress" || s.status == "processing"))).length)
    := by
  unfold cancelProcessingStepsByBookId getProcessingStepsByBookId
  dsimp only
  rw [List.filter_filter,
    List.filter_congr (fun (x : ProcessingStep) _ =>
      Bool.and_comm (x.status == "in_progress" || x.status == "processing")
        (x.book_id == bid))]
  simp only [Prod.mk.injEq]
  refine ⟨?_, trivial⟩
  congr 1
  apply List.map_congr_left
  intro s hs
  rw [mem_map_id_filter (fun s => s.id)
    (fun s => s.book_id == bid && (s.status == "in_progress" || s.status == "processing"))
    st.steps hnd s hs]

/-!  ## Claim C9  -/

/-- C9: for an existing book, the remove-pipeline-history endpoint deletes
exactly the book's ProcessingStep rows and leaves every Book (including its
status), Chapter, SubStory and Page row — and the id counter — unchanged. -/
theorem C9_remove_history_frame (st : Store) (t : String) (b : Book)
    (hb : getBookBySafeTitle st t = some b)
    (hnd : (st.steps.map (fun s => s.id)).Nodup) :
    removePipelineHistory st t =
      some { st with steps := st.steps.filter (fun s => !(s.book_id == b.id)) } := by
  unfold removePipelineHistory
  rw [hb]
  dsimp only
  rw [deleteSteps_eq st b.id hnd]

/-- C9 witness store: one book with content rows and steps of two books. -/
def storeC9 : Store :=
  { books := [{ id := 1, title := "N", safe_title := "N", chapter_count := 1,
                status := "completed" }]
    chapters := [{ id := 2, book_id := 1, title := "A", order_index := 0,
                   narration_version := "x", processing_status := "done" }]
    subStories := [{ id := 3, chapter_id := 2, sub_story_number := 1, title := "S",
                     content := "c", inlineSections := [] }]
    pages := [{ id := 4, chapter_id := 2, sub_story_id := none, page_number := 1,
                illustration_prompt := "", dialogue := "", image_url := none,
                image_gcs_key := none }]
    steps := [{ id := 5, book_id := 1, step_name := "one", status := "completed",
                error_message := none },
              { id := 6, book_id := 9, step_name := "other", status := "failed",
                error_message := none }]
    nextId := 7 }

/-- C9 witness: the frame theorem applied to a concrete store. -/
theorem C9_remove_history_frame_witness :
    removePipelineHistory storeC9 "N" =
      some { storeC9 with
              steps := storeC9.steps.filter (fun s =>
                !(s.book_id ==
                  (Book.mk 1 "N" "N" 1 "completed").id)) } :=
  C9_remove_history_frame storeC9 "N" (Book.mk 1 "N" "N" 1 "completed") (by decide)
    (by decide)

/-!  ## Claim C2: amended theorem  -/

/-- C2 (amended): stopping the pipeline of an existing book sets the book's
status to `cancelled`, transitions exactly those of its steps whose status
is verbatim `in_progress` or `processing` to `cancelled` with the fixed
message, leaves every other row of the store unchanged, and returns the
count of steps that were active (in this verbatim sense) before the call. -/
theorem C2_amended_cancel_verbatim_active (st : Store) (t : String) (b : Book)
    (hb : getBookBySafeTitle st t = some b)
    (hnd : (st.steps.map (fun s => s.id)).Nodup) :
    stopPipeline st t =
      ({ st with
          books := st.books.map (fun x =>
            if x.id = b.id then { x with status := "cancelled" } else x)
          steps := st.steps.map (fun s =>
            if s.book_id == b.id && (s.status == "in_progress" || s.status == "processing") then
              { s with status := "cancelled", error_message := some "Pipeline stopped by user" }
            else s) },
        some ((st.steps.filter (fun s =>
          s.book_id == b.id &&
            (s.status == "in_progress" || s.status == "processing"))).length)) := by
  unfold stopPipeline
  rw [hb]
  dsimp only
  have hsteps : (updateBook st b.id
      { title := none, safe_title := none, chapter_count := none,
        status := some "cancelled" }).steps = st.steps := rfl
  rw [cancelSteps_eq _ b.id (by rw [hsteps]; exact hnd)]
  rfl

/-- C2 witness store: a mix of verbatim-active, terminal and foreign steps. -/
def storeC2W : Store :=
  { books := [{ id := 1, title := "W", safe_title := "W", chapter_count := 0,
                status := "processing" }]
    chapters := []
    subStories := []
    pages := []
    steps := [{ id := 2, book_id := 1, step_name := "a", status := "in_progress",
                error_message := none },
              { id := 3, book_id := 1, step_name := "b", status := "processing",
                error_message := none },
              { id := 4, book_id := 1, step_name := "c", status := "completed",
                error_message := none },
              { id := 5, book_id := 1, step_name := "d", status := "failed",
                error_message := none },
              { id := 6, book_id := 7, step_name := "e", status := "in_progress",
                error_message := none }]
    nextId := 8 }

/-- C2 witness: the amended cancellation theorem applied to a concrete
store. -/
theorem C2_amended_cancel_verbatim_active_witness :
    stopPipeline storeC2W "W" =
      ({ storeC2W with
          books := storeC2W.books.map (fun x =>
            if x.id = (Book.mk 1 "W" "W" 0 "processing").id then
              { x with status := "cancelled" }
            else x)
          steps := storeC2W.steps.map (fun s =>
            if s.book_id == (Book.mk 1 "W" "W" 0 "processing").id &&
                (s.status == "in_progress" || s.status == "processing") then
              { s with status := "cancelled", error_message := some "Pipeline stopped by user" }
            else s) },
        some ((storeC2W.steps.filter (fun s =>
          s.book_id == (Book.mk 1 "W" "W" 0 "processing").id &&
            (s.status == "in_progress" || s.status == "processing"))).length)) :=
  C2_amended_cancel_verbatim_active storeC2W "W" (Book.mk 1 "W" "W" 0 "processing")
    (by decide) (by decide)

theorem bool_eq_of_iff {a b : Bool} (h : a = true ↔ b = true) : a = b := by
  cases a <;> cases b <;> simp_all

/-- Folding page deletion over a chapter list deletes exactly the pages
owned by one of those chapters. -/
theorem foldl_deletePages (L : List Chapter) (st : Store)
    (hnd : (st.pages.map (fun p => p.id)).Nodup) :
    L.foldl (fun st c => deletePagesByChapterId st c.id) st =
      { st with pages := st.pages.filter (fun p =>
          !(L.any (fun c => p.chapter_id == c.id))) } := by
  induction L generalizing st with
  | nil =>
    simp only [List.foldl_nil, List.any_nil, Bool.not_false, List.filter_true]
  | cons c L ih =>
    rw [List.foldl_cons, deletePages_eq st c.id hnd]
    rw [ih _ (List.Nodup.sublist
      (List.Sublist.map (fun p => p.id) (List.filter_sublist st.pages)) hnd)]
    congr 1
    rw [List.filter_filter]
    apply List.filter_congr
    intro p hp
    rw [List.any_cons, Bool.not_or, Bool.and_comm]

/-- `deleteChaptersByBookId` removes exactly the book's chapters and the
pages owned by them (under unique chapter and page ids). -/
theorem deleteChapters_eq (st : Store) (bid : Nat)
    (hndChapters : (st.chapters.map (fun c => c.id)).Nodup)
    (hndPages : (st.pages.map (fun p => p.id)).Nodup) :
    deleteChaptersByBookId st bid =
      { st with
        chapters := st.chapters.filter (fun c => !(c.book_id == bid))
        pages := st.pages.filter (fun p =>
          !(st.chapters.any (fun c => (c.book_id == bid) && (p.chapter_id == c.id)))) } := by
  have hperm :
      List.Perm
        (List.insertionSort (fun a b => a.order_index ≤ b.order_index)
          (List.filter (fun c => c.book_id == bid) st.chapters))
        (List.filter (fun c => c.book_id == bid) st.chapters) :=
    List.perm_insertionSort _ _
  unfold deleteChaptersByBookId getChaptersByBookId
  dsimp only
  rw [foldl_deletePages _ st hndPages]
  congr 1
  · apply List.filter_congr
    intro c hc
    rw [contains_eq_of_perm (List.Perm.map (fun c => c.id) hperm) c.id]
    rw [mem_map_id_filter (fun c => c.id) (fun c => c.book_id == bid) st.chapters
      hndChapters c hc]
  · apply List.filter_congr
    intro p hp
    congr 1
    apply bool_eq_of_iff
    simp only [List.any_eq_true]
    constructor
    · rintro ⟨c, hc, hf⟩
      rcases List.mem_filter.mp (hperm.mem_iff.mp hc) with ⟨hcl, hcb⟩
      exact ⟨c, hcl, by simp [hcb, hf]⟩
    · rintro ⟨c, hc, hf⟩
      rcases Bool.and_eq_true_iff.mp hf with ⟨h1, h2⟩
      exact ⟨c, hperm.mem_iff.mpr (List.mem_filter.mpr ⟨hc, h1⟩), h2⟩

/-!  ## Claim C6: amended theorem  -/

/-- C6 (amended): deleting an existing book removes exactly its
ProcessingStep rows, the Page rows owned by its chapters, its Chapter rows
and the Book row itself; SubStory rows are not part of the cascade and all
survive. -/
theorem C6_amended_cascade_scope (st : Store) (t : String) (b : Book)
    (hb : getBookBySafeTitle st t = some b)
    (hndSteps : (st.steps.map (fun s => s.id)).Nodup)
    (hndChapters : (st.chapters.map (fun c => c.id)).Nodup)
    (hndPages : (st.pages.map (fun p => p.id)).Nodup) :
    deleteBook st t =
      some
        { books := st.books.filter (fun x => !(x.id == b.id))
          chapters := st.chapters.filter (fun c => !(c.book_id == b.id))
          subStories := st.subStories
          pages := st.pages.filter (fun p =>
            !(st.chapters.any (fun c => (c.book_id == b.id) && (p.chapter_id == c.id))))
          steps := st.steps.filter (fun s => !(s.book_id == b.id))
          nextId := st.nextId } := by
  unfold deleteBook
  rw [hb]
  dsimp only
  rw [deleteSteps_eq st b.id hndSteps]
  rw [deleteChapters_eq
    { st with steps := st.steps.filter (fun s => !(s.book_id == b.id)) } b.id
    hndChapters hndPages]

/-- C6 witness store: two books, each with a chapter, a page, a sub-story
and a step. -/
def storeC6W : Store :=
  { books := [{ id := 1, title := "T", safe_title := "TW", chapter_count := 1, status := "" },
              { id := 11, title := "U", safe_title := "UW", chapter_count := 1, status := "" }]
    chapters := [{ id := 2, book_id := 1, title := "A", order_index := 0,
                   narration_version := "", processing_status := "pending" },
                 { id := 12, book_id := 11, title := "B", order_index := 0,
                   narration_version := "", processing_status := "pending" }]
    subStories := [{ id := 3, chapter_id := 2, sub_story_number := 1, title := "S",
                     content := "c", inlineSections := [] },
                   { id := 13, chapter_id := 12, sub_story_number := 1, title := "R",
                     content := "d", inlineSections := [] }]
    pages := [{ id := 4, chapter_id := 2, sub_story_id := none, page_number := 1,
                illustration_prompt := "", dialogue := "", image_url := none,
                image_gcs_key := none },
              { id := 14, chapter_id := 12, sub_story_id := none, page_number := 1,
                illustration_prompt := "", dialogue := "", image_url := none,
                image_gcs_key := none }]
    steps := [{ id := 5, book_id := 1, step_name := "s", status := "completed",
                error_message := none },
              { id := 15, book_id := 11, step_name := "s", status := "failed",
                error_message := none }]
    nextId := 16 }

/-- C6 witness: the amended cascade-scope theorem applied to a concrete
store. -/
theorem C6_amended_cascade_scope_witness :
    deleteBook storeC6W "TW" =
      some
        { books := storeC6W.books.filter (fun x =>
            !(x.id == (Book.mk 1 "T" "TW" 1 "").id))
          chapters := storeC6W.chapters.filter (fun c =>
            !(c.book_id == (Book.mk 1 "T" "TW" 1 "").id))
          subStories := storeC6W.subStories
          pages := storeC6W.pages.filter (fun p =>
            !(storeC6W.chapters.any (fun c =>
              (c.book_id == (Book.mk 1 "T" "TW" 1 "").id) && (p.chapter_id == c.id))))
          steps := storeC6W.steps.filter (fun s =>
            !(s.book_id == (Book.mk 1 "T" "TW" 1 "").id))
          nextId := storeC6W.nextId } :=
  C6_amended_cascade_scope storeC6W "TW" (Book.mk 1 "T" "TW" 1 "") (by decide) (by decide)
    (by decide) (by decide)

theorem jsOrNat_some_self (n : Nat) : jsOrNat (some n) 0 = n := by
  unfold jsOrNat
  by_cases h : n = 0 <;> simp [h]

/-!  ## Claim C7: amended theorem  -/

/-- C7 (amended): `order_index` is assigned once at creation as the book's
then-current chapter count; but an upsert of an existing chapter (as the
save loop performs, passing the chapter's position in the payload) does
overwrite the stored `order_index` with the supplied value, leaving all
other chapters untouched — so the indices are strictly increasing in
creation order only until a later save renumbers them. -/
theorem C7_amended_order_index (st : Store) (bookId : Nat) (title : String)
    (d : ChapterFields) (oi : Nat) (hoi : d.order_index = some oi) :
    ((getChaptersByBookId st bookId).find? (fun c => c.title == title) = none →
      (upsertChapter st bookId title d).2.order_index =
          (st.chapters.filter (fun c => c.book_id == bookId)).length ∧
        (upsertChapter st bookId title d).1.chapters =
          st.chapters ++ [(upsertChapter st bookId title d).2]) ∧
    (∀ ex, (getChaptersByBookId st bookId).find? (fun c => c.title == title) = some ex →
      (∃ c2 ∈ (upsertChapter st bookId title d).1.chapters,
        c2.id = ex.id ∧ c2.title = title ∧ c2.order_index = oi) ∧
      ∀ c ∈ st.chapters, c.id ≠ ex.id →
        c ∈ (upsertChapter st bookId title d).1.chapters) := by
  constructor
  · intro hnone
    unfold upsertChapter
    dsimp only
    rw [hnone]
    dsimp only [createChapter]
    refine ⟨?_, rfl⟩
    show jsOrNat (some (getChaptersByBookId st bookId).length) 0 = _
    rw [jsOrNat_some_self]
    unfold getChaptersByBookId
    exact List.length_insertionSort _ _
  · intro ex hex
    have hmem : ex ∈ st.chapters := by
      have h1 : ex ∈ getChaptersByBookId st bookId := List.mem_of_find?_eq_some hex
      unfold getChaptersByBookId at h1
      exact (List.mem_filter.mp ((List.perm_insertionSort _ _).mem_iff.mp h1)).1
    unfold upsertChapter
    dsimp only
    rw [hex]
    dsimp only [updateChapter]
    constructor
    · refine ⟨applyChapterPatch { d with title := some title } ex, ?_, rfl, rfl, ?_⟩
      · have := List.mem_map_of_mem
          (fun c => if c.id = ex.id then applyChapterPatch { d with title := some title } c
            else c) hmem
        simpa using this
      · show ({ d with title := some title } : ChapterFields).order_index.getD ex.order_index
            = oi
        rw [show ({ d with title := some title } : ChapterFields).order_index = d.order_index
          from rfl, hoi]
        rfl
    · intro c hc hne
      have := List.mem_map_of_mem
        (fun c => if c.id = ex.id then applyChapterPatch { d with title := some title } c
          else c) hc
      dsimp only at this
      rw [if_neg hne] at this
      exact this

/-- C7 witness store: book 1 with one chapter `A` at `order_index = 0`. -/
def storeC7W : Store :=
  { books := [{ id := 1, title := "T", safe_title := "T", chapter_count := 1, status := "" }]
    chapters := [{ id := 2, book_id := 1, title := "A", order_index := 0,
                   narration_version := "", processing_status := "pending" }]
    subStories := []
    pages := []
    steps := []
    nextId := 3 }

/-- C7 chapter partial used by the witness: a save positions the chapter at
index 5. -/
def fieldsC7W : ChapterFields :=
  { book_id := none, title := none, order_index := some 5,
    narration_version := some "n", processing_status := none }

/-- C7 witness: the amended order-index theorem applied to a concrete
store. -/
theorem C7_amended_order_index_witness :
    ((getChaptersByBookId storeC7W 1).find? (fun c => c.title == "A") = none →
      (upsertChapter storeC7W 1 "A" fieldsC7W).2.order_index =
          (storeC7W.chapters.filter (fun c => c.book_id == 1)).length ∧
        (upsertChapter storeC7W 1 "A" fieldsC7W).1.chapters =
          storeC7W.chapters ++ [(upsertChapter storeC7W 1 "A" fieldsC7W).2]) ∧
    (∀ ex, (getChaptersByBookId storeC7W 1).find? (fun c => c.title == "A") = some ex →
      (∃ c2 ∈ (upsertChapter storeC7W 1 "A" fieldsC7W).1.chapters,
        c2.id = ex.id ∧ c2.title = "A" ∧ c2.order_index = 5) ∧
      ∀ c ∈ storeC7W.chapters, c.id ≠ ex.id →
        c ∈ (upsertChapter storeC7W 1 "A" fieldsC7W).1.chapters) :=
  C7_amended_order_index storeC7W 1 "A" fieldsC7W 5 (by decide)

/-!  ## Claim C8: amended theorem  -/

theorem saveSubStories_success (subs : List SubStoryIn) :
    ∀ (st : Store) (cid ci : Nat) (failPage : Nat → Nat → Bool),
      (saveSubStories st cid ci subs noFailure failPage).2 = true := by
  induction subs with
  | nil => intro st cid ci fp; rfl
  | cons ss rest ih =>
    intro st cid ci fp
    rw [saveSubStories]
    dsimp only [noFailure]
    rw [if_neg (by simp)]
    exact ih _ _ _ _

theorem saveChapters_success (chapters : List ChapterIn) :
    ∀ (st : Store) (bid i : Nat) (failPage : Nat → Nat → Bool),
      (saveChapters st bid chapters i noFailure failPage).2 = true := by
  induction chapters with
  | nil => intro st bid i fp; rfl
  | cons ch rest ih =>
    intro st bid i fp
    rw [saveChapters]
    dsimp only
    cases hss : ch.reading_version.sub_stories with
    | some subs =>
      dsimp only
      rw [if_pos (saveSubStories_success subs _ _ _ _)]
      exact ih _ _ _ _
    | none =>
      dsimp only
      cases hsec : ch.reading_version.sections <;> dsimp only <;> exact ih _ _ _ _

/-- C8 concrete payload for page-failure isolation: one flat chapter with
pages 1 and 2. -/
def bookInC8P : BookIn :=
  { book_title := "T"
    chapter_count := none
    chapters :=
      [{ title := "A", narration_version := "n", content := ""
         reading_version :=
           { sub_stories := none
             sections := some
               [{ page_number := 1, dialogue := "d1", illustration_prompt := "p1",
                  illustration_image := "" },
                { page_number := 2, dialogue := "d2", illustration_prompt := "p2",
                  illustration_image := "" }] } }] }

/-- Failure oracle of the C8 page-isolation instance: the upsert of page 1
throws. -/
def failPageC8 : Nat → Nat → Bool := fun _ n => n == 1

/-- C8 (amended): a page upsert failure is caught and skipped, so the save
reports success for every payload whenever no sub-story upsert fails, and a
failing page's siblings still persist; a sub-story upsert failure, however,
is re-thrown and aborts the entire save — the save reports failure and no
page of any chapter is written. -/
theorem C8_amended_partial_failure :
    (∀ (st : Store) (t : String) (data : BookIn) (failPage : Nat → Nat → Bool),
      (savePUT st t data noFailure failPage).2 = true) ∧
    (savePUT Store.empty "T" bookInC8P noFailure failPageC8).1.pages.map
        (fun p => p.page_number) = [2] ∧
    (savePUT Store.empty "T" bookInC8 failSubC8 noFailure).2 = false ∧
    (savePUT Store.empty "T" bookInC8 failSubC8 noFailure).1.pages = [] := by
  refine ⟨?_, by decide, by decide, by decide⟩
  intro st t data fp
  unfold savePUT
  cases hb : getBookBySafeTitle st t <;> dsimp only <;> exact saveChapters_success _ _ _ _ _

/-!  ## Claim C4: flat round-trip  -/

theorem jsOrOpt_some_emptyD (x : String) : jsOrOpt (some x) "" = x := by
  unfold jsOrOpt
  by_cases h : x = "" <;> simp [h]

/-- Flat sections of an incoming chapter (empty when the field is absent). -/
def secsOf (ch : ChapterIn) : List SectionIn :=
  ch.reading_version.sections.getD []

/-- The canonical page tuple of an incoming section. -/
def canonSec (s : SectionIn) : SectionOut :=
  { page_number := s.page_number
    illustration_prompt := s.illustration_prompt
    dialogue := s.dialogue
    illustration_image := s.illustration_image }

/-- Well-formed illustration reference: empty, an absolute URL, or a GCS
key under `books/` (the shapes the reconciliation contract produces). -/
def wfImage (img : String) : Prop :=
  img = "" ∨ strStarts img "http" = true ∨ strStarts img "books/" = true

instance wfImageDecidable (img : String) : Decidable (wfImage img) := by
  unfold wfImage
  exact inferInstance

/-- The page document the save path produces for section `s` of chapter
`cid`. -/
def pageFromSec (cid : Nat) (s : SectionIn) (p : Page) : Prop :=
  p.chapter_id = cid ∧ p.sub_story_id = none ∧ p.page_number = s.page_number ∧
    p.dialogue = s.dialogue ∧ p.illustration_prompt = s.illustration_prompt ∧
    p.image_url = (if strStarts s.illustration_image "http" then
        some s.illustration_image else none) ∧
    p.image_gcs_key = (if strStarts s.illustration_image "books/" then
        some s.illustration_image else none)

/-- One fresh page creation of the save loop, in closed form. -/
theorem savePageSection_fresh (st : Store) (cid : Nat) (s : SectionIn)
    (hfresh : ∀ p ∈ st.pages, p.chapter_id = cid → p.page_number ≠ s.page_number) :
    ∃ p0, savePageSection st cid s =
        { st with pages := st.pages ++ [p0], nextId := st.nextId + 1 } ∧
      pageFromSec cid s p0 := by
  have hnone : (getPagesByChapterId st cid).find? (fun p => p.page_number == s.page_number)
      = none := by
    rw [List.find?_eq_none]
    intro p hp
    have hp2 : p ∈ st.pages.filter (fun p => p.chapter_id == cid) := by
      unfold getPagesByChapterId at hp
      exact (List.perm_insertionSort _ _).mem_iff.mp hp
    rcases List.mem_filter.mp hp2 with ⟨hpl, hpc⟩
    have : p.page_number ≠ s.page_number :=
      hfresh p hpl (by simpa using hpc)
    simpa using this
  refine ⟨{ id := st.nextId
            chapter_id := jsOrNat (some cid) 0
            sub_story_id := none
            page_number := jsOrNat (some s.page_number) 0
            illustration_prompt := jsOrOpt (some s.illustration_prompt) ""
            dialogue := jsOrOpt (some s.dialogue) ""
            image_gcs_key := if strStarts s.illustration_image "books/" then
                some s.illustration_image else none
            image_url := if strStarts s.illustration_image "http" then
                some s.illustration_image else none }, ?_, ?_⟩
  · unfold savePageSection upsertPage
    dsimp only
    rw [hnone]
    rfl
  · refine ⟨jsOrNat_some_self cid, rfl, jsOrNat_some_self _, jsOrOpt_some_emptyD _,
      jsOrOpt_some_emptyD _, rfl, rfl⟩

/-- The page loop of the save handler on a fresh chapter with distinct page
numbers and no failures: it appends one page per section, in order, touching
nothing else. -/
theorem saveSections_spec (secs : List SectionIn) :
    ∀ (st : Store) (cid ci : Nat),
      ((secs.map (fun s => s.page_number)).Pairwise (· ≠ ·)) →
      (∀ p ∈ st.pages, p.chapter_id = cid → p.page_number ∉
        secs.map (fun s => s.page_number)) →
      ∃ newPages,
        saveSections st cid ci secs noFailure =
          { st with pages := st.pages ++ newPages, nextId := st.nextId + secs.length } ∧
        (∀ p ∈ newPages, p.chapter_id = cid) ∧
        List.Forall₂ (pageFromSec cid) secs newPages := by
  induction secs with
  | nil =>
    intro st cid ci _ _
    exact ⟨[], by simp [saveSections], by simp, List.Forall₂.nil⟩
  | cons s rest ih =>
    intro st cid ci hnum hfresh
    have hstep : saveSections st cid ci (s :: rest) noFailure =
        saveSections (savePageSection st cid s) cid ci rest noFailure := rfl
    rcases savePageSection_fresh st cid s (fun p hp hc =>
        fun he => hfresh p hp hc (by rw [he]; exact List.mem_cons_self _ _)) with
      ⟨p0, hsave, hp0⟩
    have hnumTail : ((rest.map (fun s => s.page_number)).Pairwise (· ≠ ·)) :=
      (List.pairwise_cons.mp (by simpa using hnum)).2
    have hheadNe : ∀ y ∈ rest.map (fun s => s.page_number), s.page_number ≠ y :=
      (List.pairwise_cons.mp (by simpa using hnum)).1
    rcases ih { st with pages := st.pages ++ [p0], nextId := st.nextId + 1 } cid ci hnumTail
        (by
          intro p hp hc
          rcases List.mem_append.mp hp with hold | hnew
          · intro hmem
            exact hfresh p hold hc (List.mem_cons_of_mem _ hmem)
          · have hp0eq : p = p0 := by simpa using hnew
            subst hp0eq
            intro hmem
            exact hheadNe _ (by
              rw [← hp0.2.2.1]
              exact hmem) rfl) with
      ⟨newPages, hrec, hcidAll, hfa⟩
    refine ⟨p0 :: newPages, ?_, ?_, List.Forall₂.cons hp0 hfa⟩
    · rw [hstep, hsave, hrec]
      congr 1
      · simp
      · simp [List.length_cons]
        omega
    · intro p hp
      rcases List.mem_cons.mp hp with rfl | hmem
      · exact hp0.1
      · exact hcidAll p hmem

theorem listStarts_cons_iff (a : Char) (ps l : List Char) :
    listStarts (a :: ps) l = true ↔ ∃ cs, l = a :: cs ∧ listStarts ps cs = true := by
  cases l with
  | nil => simp [listStarts]
  | cons c cs =>
    simp only [listStarts, Bool.and_eq_true, beq_iff_eq]
    constructor
    · rintro ⟨rfl, h2⟩
      exact ⟨cs, rfl, h2⟩
    · rintro ⟨cs2, heq, h2⟩
      rcases List.cons.injEq .. ▸ heq with ⟨h3, h4⟩
      exact ⟨h3.symm, h4 ▸ h2⟩

theorem strStarts_http_ne_empty (s : String) (h : strStarts s "http" = true) : s ≠ "" := by
  intro he
  subst he
  exact absurd h (by decide)

theorem strStarts_books_ne_empty (s : String) (h : strStarts s "books/" = true) : s ≠ "" := by
  intro he
  subst he
  exact absurd h (by decide)

theorem strStarts_books_not_http (s : String) (h : strStarts s "books/" = true) :
    strStarts s "http" = false := by
  unfold strStarts at h ⊢
  have hb : ("books/").data = 'b' :: ("ooks/").data := rfl
  have hh : ("http").data = 'h' :: ("ttp").data := rfl
  rw [hb] at h
  rw [hh]
  rcases (listStarts_cons_iff 'b' _ _).mp h with ⟨cs, hcs, _⟩
  rw [hcs]
  simp [listStarts, show ('h' == 'b') = false from by decide]

/-- Reading back a page the save produced yields exactly the canonical tuple
of the saved section, provided the illustration reference is well-formed. -/
theorem pageToSection_of_pageFromSec {cid : Nat} {s : SectionIn} {p : Page}
    (h : pageFromSec cid s p) (hwf : wfImage s.illustration_image) :
    pageToSection p = canonSec s := by
  obtain ⟨_, _, h3, h4, h5, h6, h7⟩ := h
  have himg : jsOrOpt p.image_url (jsOrOpt p.image_gcs_key "") = s.illustration_image := by
    rw [h6, h7]
    rcases hwf with he | hh | hb
    · rw [he]
      decide
    · have hne := strStarts_http_ne_empty _ hh
      simp [hh, jsOrOpt, hne]
    · have hnh := strStarts_books_not_http _ hb
      have hne := strStarts_books_ne_empty _ hb
      simp [hb, hnh, jsOrOpt, hne]
  unfold pageToSection canonSec
  rw [h3, h4, h5, himg]

/-- Effective chapter titles of the save loop starting at index `i`
(`chapterData.title || 'Chapter i+1'`). -/
def effTitles : Nat → List ChapterIn → List String
  | _, [] => []
  | i, ch :: rest =>
    jsOr ch.title ("Chapter " ++ toString (i + 1)) :: effTitles (i + 1) rest

/-- One fresh chapter creation of the save loop, in closed form. -/
theorem upsertChapter_fresh (st : Store) (bid : Nat) (title : String) (d : ChapterFields)
    (hfresh : ∀ c ∈ st.chapters, c.book_id = bid → c.title ≠ title) :
    ∃ c0, upsertChapter st bid title d =
        ({ st with chapters := st.chapters ++ [c0], nextId := st.nextId + 1 }, c0) ∧
      c0.id = st.nextId ∧ c0.book_id = bid ∧ c0.title = title ∧
      c0.order_index = (st.chapters.filter (fun c => c.book_id == bid)).length := by
  have hnone : (getChaptersByBookId st bid).find? (fun c => c.title == title) = none := by
    rw [List.find?_eq_none]
    intro c hc
    unfold getChaptersByBookId at hc
    rcases List.mem_filter.mp ((List.perm_insertionSort _ _).mem_iff.mp hc) with ⟨hcl, hcb⟩
    simpa using hfresh c hcl (by simpa using hcb)
  refine ⟨{ id := st.nextId
            book_id := jsOrNat (some bid) 0
            title := jsOrOpt (some title) ""
            order_index := jsOrNat (some (getChaptersByBookId st bid).length) 0
            narration_version := jsOrOpt d.narration_version ""
            processing_status := jsOrOpt d.processing_status "pending" }, ?_,
    rfl, jsOrNat_some_self bid, jsOrOpt_some_emptyD title, ?_⟩
  · unfold upsertChapter
    dsimp only
    rw [hnone]
    rfl
  · show jsOrNat (some (getChaptersByBookId st bid).length) 0 = _
    rw [jsOrNat_some_self]
    unfold getChaptersByBookId
    exact List.length_insertionSort _ _

/-- The chapter loop of the save handler on a flat, well-formed payload:
it succeeds, appends one chapter per payload entry (fresh titles, order
indices `i, i+1, …`), appends the corresponding pages, and touches no other
collection; the pages of each new chapter are exactly its payload sections
in order. -/
theorem saveChapters_flat_spec (cs : List ChapterIn) :
    ∀ (st : Store) (bid i : Nat),
      (∀ ch ∈ cs, ch.reading_version.sub_stories = none) →
      st.subStories = [] →
      (effTitles i cs).Pairwise (· ≠ ·) →
      (∀ c ∈ st.chapters, c.book_id = bid → c.title ∉ effTitles i cs) →
      (st.chapters.filter (fun c => c.book_id == bid)).length = i →
      (∀ c ∈ st.chapters, c.book_id = bid → c.order_index < i) →
      (∀ c ∈ st.chapters, c.id < st.nextId) →
      (∀ p ∈ st.pages, p.chapter_id < st.nextId) →
      (∀ ch ∈ cs, ((secsOf ch).map (fun s => s.page_number)).Pairwise (· ≠ ·)) →
      ∃ newChaps st2,
        saveChapters st bid cs i noFailure noFailure = (st2, true) ∧
        st2.books = st.books ∧ st2.subStories = [] ∧ st2.steps = st.steps ∧
        st.nextId ≤ st2.nextId ∧
        st2.chapters = st.chapters ++ newChaps ∧
        (∃ newPages, st2.pages = st.pages ++ newPages ∧
          ∀ p ∈ newPages, st.nextId ≤ p.chapter_id) ∧
        newChaps.map (fun c => c.title) = effTitles i cs ∧
        (∀ c ∈ newChaps, c.book_id = bid ∧ i ≤ c.order_index ∧ c.id < st2.nextId) ∧
        newChaps.Pairwise (fun a b => a.order_index < b.order_index) ∧
        List.Forall₂ (fun ch c =>
          List.Forall₂ (pageFromSec c.id) (secsOf ch)
            (st2.pages.filter (fun p => p.chapter_id == c.id))) cs newChaps := by
  induction cs with
  | nil =>
    intro st bid i _ hsubs _ _ _ _ _ _ _
    exact ⟨[], st, rfl, rfl, hsubs, rfl, le_refl _, by simp, ⟨[], by simp, by simp⟩, rfl,
      by simp, List.Pairwise.nil, List.Forall₂.nil⟩
  | cons ch rest ih =>
    intro st bid i hflat hsubs htitles hfreshT hcount horder hcid hpcid hnum
    have hflatHead : ch.reading_version.sub_stories = none :=
      hflat ch (List.mem_cons_self _ _)
    have htpair := List.pairwise_cons.mp
      (show List.Pairwise (fun a b => a ≠ b)
          (jsOr ch.title ("Chapter " ++ toString (i + 1)) :: effTitles (i + 1) rest)
        from htitles)
    obtain ⟨c0, hup, hc0id, hc0book, hc0title, hc0order⟩ :=
      upsertChapter_fresh st bid (jsOr ch.title ("Chapter " ++ toString (i + 1)))
        { book_id := none, title := none, order_index := some i
          narration_version := some (jsOr ch.narration_version (jsOr ch.content ""))
          processing_status := none }
        (fun c hc hcb he =>
          hfreshT c hc hcb (by
            rw [show effTitles i (ch :: rest) =
                jsOr ch.title ("Chapter " ++ toString (i + 1)) :: effTitles (i + 1) rest
              from rfl, he]
            exact List.mem_cons_self _ _))
    have hc0orderI : c0.order_index = i := by rw [hc0order, hcount]
    -- run the head chapter and package the store it leaves behind
    obtain ⟨newPages0, N, hN, hstep, hcid0, hfa0⟩ :
        ∃ newPages0 N, st.nextId + 1 ≤ N ∧
          saveChapters st bid (ch :: rest) i noFailure noFailure =
            saveChapters
              (Store.mk st.books (st.chapters ++ [c0]) st.subStories
                (st.pages ++ newPages0) st.steps N) bid rest (i + 1) noFailure noFailure ∧
          (∀ p ∈ newPages0, p.chapter_id = c0.id) ∧
          List.Forall₂ (pageFromSec c0.id) (secsOf ch) newPages0 := by
      cases hsec : ch.reading_version.sections with
      | none =>
        refine ⟨[], st.nextId + 1, le_refl _, ?_, by simp,
          by rw [secsOf, hsec]; exact List.Forall₂.nil⟩
        rw [saveChapters]
        dsimp only
        rw [hup]
        dsimp only
        rw [hflatHead]
        dsimp only
        rw [hsec]
        dsimp only
        have hst : Store.mk st.books (st.chapters ++ [c0]) st.subStories
            (st.pages ++ []) st.steps (st.nextId + 1) =
            { st with chapters := st.chapters ++ [c0], nextId := st.nextId + 1 } := by
          simp
        rw [hst]
      | some secs =>
        obtain ⟨newPages0, hrun, hcids, hfa⟩ :=
          saveSections_spec secs
            { st with chapters := st.chapters ++ [c0], nextId := st.nextId + 1 } c0.id i
            (by
              have h := hnum ch (List.mem_cons_self _ _)
              rw [secsOf, hsec] at h
              exact h)
            (by
              intro p hp hpc
              exfalso
              have hlt := hpcid p hp
              rw [hc0id] at hpc
              omega)
        refine ⟨newPages0, st.nextId + 1 + secs.length, by omega, ?_, hcids,
          by rw [secsOf, hsec]; exact hfa⟩
        rw [saveChapters]
        dsimp only
        rw [hup]
        dsimp only
        rw [hflatHead]
        dsimp only
        rw [hsec]
        dsimp only
        rw [hrun]
    -- apply the induction hypothesis to the intermediate store
    obtain ⟨newChaps, st2, hrun2, hbooks2, hsubs2, hsteps2, hnext2, hchap2, hpages2,
        hmtitles2, hprops2, hpair2, hfa2⟩ :=
      ih (Store.mk st.books (st.chapters ++ [c0]) st.subStories
            (st.pages ++ newPages0) st.steps N) bid (i + 1)
        (fun c hc => hflat c (List.mem_cons_of_mem _ hc))
        hsubs
        htpair.2
        (by
          intro c hc hcb
          rcases List.mem_append.mp hc with hold | hnew
          · intro hmem
            exact hfreshT c hold hcb (by
              rw [show effTitles i (ch :: rest) =
                  jsOr ch.title ("Chapter " ++ toString (i + 1)) :: effTitles (i + 1) rest
                from rfl]
              exact List.mem_cons_of_mem _ hmem)
          · have hceq : c = c0 := by simpa using hnew
            subst hceq
            intro hmem
            exact htpair.1 _ hmem (hc0title.symm))
        (by
          show ((st.chapters ++ [c0]).filter (fun c => c.book_id == bid)).length = i + 1
          rw [List.filter_append, List.length_append, hcount]
          have h1 : ([c0].filter (fun c => c.book_id == bid)).length = 1 := by
            simp [hc0book]
          omega)
        (by
          intro c hc hcb
          rcases List.mem_append.mp hc with hold | hnew
          · exact Nat.lt_succ_of_lt (horder c hold hcb)
          · have hceq : c = c0 := by simpa using hnew
            subst hceq
            omega)
        (by
          intro c hc
          show c.id < N
          rcases List.mem_append.mp hc with hold | hnew
          · have := hcid c hold
            omega
          · have hceq : c = c0 := by simpa using hnew
            subst hceq
            omega)
        (by
          intro p hp
          show p.chapter_id < N
          rcases List.mem_append.mp hp with hold | hnew
          · have := hpcid p hold
            omega
          · have := hcid0 p hnew
            rw [this, hc0id]
            omega)
        (fun c hc => hnum c (List.mem_cons_of_mem _ hc))
    -- repackage the induction hypothesis facts without store projections
    have hnext2n : N ≤ st2.nextId := hnext2
    have hchap2n : st2.chapters = (st.chapters ++ [c0]) ++ newChaps := hchap2
    obtain ⟨newPages1, hpg1, hpg1b⟩ := hpages2
    have hpg1n : st2.pages = (st.pages ++ newPages0) ++ newPages1 := hpg1
    have hpg1bn : ∀ p ∈ newPages1, N ≤ p.chapter_id := hpg1b
    have hc0lt : c0.id < N := by omega
    refine ⟨c0 :: newChaps, st2, ?_, ?_, hsubs2, ?_, by omega, ?_, ?_, ?_, ?_, ?_, ?_⟩
    · rw [hstep]
      exact hrun2
    · rw [hbooks2]
    · rw [hsteps2]
    · rw [hchap2n, List.append_assoc, List.singleton_append]
    · refine ⟨newPages0 ++ newPages1, ?_, ?_⟩
      · rw [hpg1n, List.append_assoc]
      · intro p hp
        rcases List.mem_append.mp hp with h0 | h1
        · rw [hcid0 p h0, hc0id]
        · have := hpg1bn p h1
          omega
    · rw [show effTitles i (ch :: rest) =
          jsOr ch.title ("Chapter " ++ toString (i + 1)) :: effTitles (i + 1) rest
        from rfl, List.map_cons, hc0title, hmtitles2]
    · intro c hc
      rcases List.mem_cons.mp hc with rfl | hmem
      · exact ⟨hc0book, by omega, by omega⟩
      · obtain ⟨h1, h2, h3⟩ := hprops2 c hmem
        exact ⟨h1, by omega, h3⟩
    · refine List.Pairwise.cons ?_ hpair2
      intro c hc
      have := (hprops2 c hc).2.1
      omega
    · refine List.Forall₂.cons ?_ hfa2
      have hfilter : st2.pages.filter (fun p => p.chapter_id == c0.id) = newPages0 := by
        rw [hpg1n, List.filter_append, List.filter_append]
        have h1 : st.pages.filter (fun p => p.chapter_id == c0.id) = [] := by
          rw [List.filter_eq_nil_iff]
          intro p hp
          have := hpcid p hp
          rw [hc0id]
          simp only [beq_iff_eq]
          omega
        have h2 : newPages0.filter (fun p => p.chapter_id == c0.id) = newPages0 := by
          rw [List.filter_eq_self]
          intro p hp
          simp [hcid0 p hp]
        have h3 : newPages1.filter (fun p => p.chapter_id == c0.id) = [] := by
          rw [List.filter_eq_nil_iff]
          intro p hp
          have := hpg1bn p hp
          rw [hc0id]
          simp only [beq_iff_eq]
          omega
        rw [h1, h2, h3, List.append_nil]
        rfl
      rw [hfilter]
      exact hfa0

theorem forall₂_imp_of_mem_left {α β : Type} {R S : α → β → Prop} :
    ∀ {as : List α} {bs : List β}, List.Forall₂ R as bs →
      (∀ a ∈ as, ∀ b, R a b → S a b) → List.Forall₂ S as bs := by
  intro as bs h
  induction h with
  | nil => intro; exact List.Forall₂.nil
  | cons hr hrest ih =>
    intro hm
    exact List.Forall₂.cons (hm _ (List.mem_cons_self _ _) _ hr)
      (ih fun a ha b => hm a (List.mem_cons_of_mem _ ha) b)

theorem map_eq_of_forall₂ {α β γ : Type} {R : α → β → Prop} {g : β → γ} {h2 : α → γ} :
    ∀ {as : List α} {bs : List β}, List.Forall₂ R as bs →
      (∀ a ∈ as, ∀ b, R a b → g b = h2 a) → bs.map g = as.map h2 := by
  intro as bs h
  induction h with
  | nil => intro; rfl
  | cons hr hrest ih =>
    intro hm
    simp only [List.map_cons]
    rw [hm _ (List.mem_cons_self _ _) _ hr, ih fun a ha b => hm a (List.mem_cons_of_mem _ ha) b]

/-- Book partial the save PUT passes to `upsertBook` when the book is not
yet present. -/
def bookFieldsFor (t : String) (data : BookIn) : BookFields :=
  { title := some (jsOr data.book_title (underscoresToSpaces t))
    safe_title := none
    chapter_count := some (if data.chapters.length ≠ 0 then data.chapters.length
      else jsOrNat data.chapter_count 0)
    status := some "pending" }

/-- C4 (amended): for every book payload in the flat-section shape — with
pairwise-distinct effective chapter titles, pairwise-distinct page numbers
within each chapter, and well-formed illustration references (empty, http
URL, or `books/` GCS key) — saving into an empty store succeeds and reading
the book back through the entity-graph resolver yields, for each chapter,
exactly the saved `{page_number, illustration_prompt, dialogue,
illustration_image}` tuples (as a permutation: the read returns them sorted
by page number). -/
theorem C4_amended_flat_roundtrip (t : String) (data : BookIn)
    (hflat : ∀ ch ∈ data.chapters, ch.reading_version.sub_stories = none)
    (htitles : (effTitles 0 data.chapters).Pairwise (· ≠ ·))
    (hnum : ∀ ch ∈ data.chapters,
      ((secsOf ch).map (fun s => s.page_number)).Pairwise (· ≠ ·))
    (hwf : ∀ ch ∈ data.chapters, ∀ s ∈ secsOf ch, wfImage s.illustration_image) :
    (savePUT Store.empty t data noFailure noFailure).2 = true ∧
    ∃ out, getBookWithChaptersAndPages (savePUT Store.empty t data noFailure noFailure).1 t
        = some out ∧
      List.Forall₂ (fun ch cOut => ∃ secs,
          cOut.reading_version = ReadingOut.flat secs ∧
          List.Perm secs ((secsOf ch).map canonSec))
        data.chapters out.chapters := by
  have hsaveEq : savePUT Store.empty t data noFailure noFailure =
      saveChapters (upsertBook Store.empty t (bookFieldsFor t data)).1
        (upsertBook Store.empty t (bookFieldsFor t data)).2.id data.chapters 0
        noFailure noFailure := rfl
  have hbooksInit : (upsertBook Store.empty t (bookFieldsFor t data)).1.books =
      [(upsertBook Store.empty t (bookFieldsFor t data)).2] := rfl
  have hB0safe : (upsertBook Store.empty t (bookFieldsFor t data)).2.safe_title = t :=
    jsOrOpt_some_emptyD t
  obtain ⟨newChaps, st2, hrun, hbooks, hsubs2, hsteps, hnext, hchap, hpages, hmt,
      hprops, hpair, hfa⟩ :=
    saveChapters_flat_spec data.chapters
      (upsertBook Store.empty t (bookFieldsFor t data)).1
      (upsertBook Store.empty t (bookFieldsFor t data)).2.id 0
      hflat rfl htitles
      (fun c hc => absurd hc (List.not_mem_nil c))
      rfl
      (fun c hc => absurd hc (List.not_mem_nil c))
      (fun c hc => absurd hc (List.not_mem_nil c))
      (fun p hp => absurd hp (List.not_mem_nil p))
      hnum
  have hresult : savePUT Store.empty t data noFailure noFailure = (st2, true) := by
    rw [hsaveEq, hrun]
  refine ⟨by rw [hresult], ?_⟩
  rw [hresult]
  have hfind : getBookBySafeTitle st2 t =
      some (upsertBook Store.empty t (bookFieldsFor t data)).2 := by
    unfold getBookBySafeTitle
    rw [hbooks, hbooksInit]
    have hp : ((upsertBook Store.empty t (bookFieldsFor t data)).2.safe_title == t)
        = true := by
      rw [hB0safe]
      exact beq_self_eq_true t
    simp [List.find?, hp]
  have hchapsEq : getChaptersByBookId st2
      (upsertBook Store.empty t (bookFieldsFor t data)).2.id = newChaps := by
    unfold getChaptersByBookId
    have h1 : st2.chapters = newChaps := by
      rw [hchap]
      exact List.nil_append newChaps
    rw [h1]
    rw [List.filter_eq_self.mpr (fun c hc => by simp [(hprops c hc).1])]
    exact List.Sorted.insertionSort_eq
      (List.Pairwise.imp (fun h => Nat.le_of_lt h) hpair)
  have hsubsEmpty : ∀ cid, getSubStoriesByChapterId st2 cid = [] := by
    intro cid
    unfold getSubStoriesByChapterId
    rw [hsubs2]
    rfl
  refine ⟨(getBookWithChaptersAndPages st2 t).getD
    { book_title := "", chapter_count := 0, chapters := [] }, ?_, ?_⟩
  · unfold getBookWithChaptersAndPages
    rw [hfind]
    rfl
  · unfold getBookWithChaptersAndPages
    rw [hfind]
    dsimp only
    rw [hchapsEq]
    apply List.forall₂_map_right_iff.mpr
    apply forall₂_imp_of_mem_left hfa
    intro ch hch c hr
    refine ⟨(getPagesByChapterId st2 c.id).map pageToSection, ?_, ?_⟩
    · dsimp only
      rw [hsubsEmpty c.id]
      rfl
    · have hperm := List.Perm.map pageToSection
        (List.perm_insertionSort (fun a b => a.page_number ≤ b.page_number)
          (st2.pages.filter (fun p => p.chapter_id == c.id)))
      have hmapeq : (st2.pages.filter (fun p => p.chapter_id == c.id)).map pageToSection
          = (secsOf ch).map canonSec :=
        map_eq_of_forall₂ hr
          (fun s hs p hps => pageToSection_of_pageFromSec hps (hwf ch hch s hs))
      rw [hmapeq] at hperm
      exact hperm

/-- C4 witness payload: two flat chapters with canonical image references
(the first chapter's sections arrive unsorted). -/
def bookInC4W : BookIn :=
  { book_title := "T"
    chapter_count := none
    chapters :=
      [{ title := "A", narration_version := "na", content := ""
         reading_version :=
           { sub_stories := none
             sections := some
               [{ page_number := 2, dialogue := "d2", illustration_prompt := "p2",
                  illustration_image := "books/T/images/x" },
                { page_number := 1, dialogue := "d1", illustration_prompt := "p1",
                  illustration_image := "http://a" }] } },
       { title := "B", narration_version := "nb", content := ""
         reading_version :=
           { sub_stories := none
             sections := some
               [{ page_number := 1, dialogue := "e1", illustration_prompt := "q1",
                  illustration_image := "" }] } }] }

/-- C4 witness: the amended flat round-trip theorem applied to a concrete
payload. -/
theorem C4_amended_flat_roundtrip_witness :
    (savePUT Store.empty "TW4" bookInC4W noFailure noFailure).2 = true ∧
    ∃ out, getBookWithChaptersAndPages
        (savePUT Store.empty "TW4" bookInC4W noFailure noFailure).1 "TW4" = some out ∧
      List.Forall₂ (fun ch cOut => ∃ secs,
          cOut.reading_version = ReadingOut.flat secs ∧
          List.Perm secs ((secsOf ch).map canonSec))
        bookInC4W.chapters out.chapters :=
  C4_amended_flat_roundtrip "TW4" bookInC4W (by decide) (by decide) (by decide) (by decide)

/-- C4 counterexample payload: a flat chapter whose illustration reference
is a bare file name. -/
def bookInC4X : BookIn :=
  { book_title := "T"
    chapter_count := none
    chapters :=
      [{ title := "A", narration_version := "n", content := ""
         reading_version :=
           { sub_stories := none
             sections := some
               [{ page_number := 1, dialogue := "d", illustration_prompt := "p",
                  illustration_image := "x.png" }] } }] }

/-- C4 counterexample: with `illustration_image = "x.png"` (neither an http
URL nor a `books/` key) the save stores neither image field and the read
returns `illustration_image = ""`, so the page tuple is not preserved and
the unconditional round-trip claim is false. -/
theorem C4_counterexample_noncanonical_image :
    (savePUT Store.empty "TX4" bookInC4X noFailure noFailure).2 = true ∧
    getBookWithChaptersAndPages
        (savePUT Store.empty "TX4" bookInC4X noFailure noFailure).1 "TX4" =
      some
        { book_title := "T"
          chapter_count := 1
          chapters :=
            [{ id := 2, title := "A", book_title := "T", narration_version := "n"
               reading_version := ReadingOut.flat
                 [{ page_number := 1, illustration_prompt := "p", dialogue := "d",
                    illustration_image := "" }]
               content := "n" }] } ∧
    bookInC4X.chapters.map (fun ch => (secsOf ch).map canonSec) =
      [[{ page_number := 1, illustration_prompt := "p", dialogue := "d",
          illustration_image := "x.png" }]] := by decide

end TinyTales
